import Mathlib

/-!
Verification development for `dm-data-relationship-simplifier` (`src/main.py`).

The program loads a JSON document, optionally simplifies a `relationships`
list (deduplication and a random retention filter), optionally anonymizes
the values of records under a `datasets` key, and saves the result.

The embedding below translates the in-memory data model and the two
transformation functions (`simplify_relationships`, `anonymize_data`) plus
the driver's sequencing (`main`) into Lean.  File I/O, logging and argument
parsing are not modelled; fallible code is modelled with `Except`.

One caveat governs everything about the anonymizer: `src/main.py` as
shipped does not parse.  Line 149 (`if isinstance(value, str):`) is
indented 21 spaces while the `elif isinstance(value, int):` that continues
it at line 162 sits at 20, a width on no enclosing level, so CPython
rejects the module with `IndentationError: unindent does not match any
outer indentation level (line 162)` before a single statement runs
(established below by `pyIndentsAccepted`/`anonLoopIndents`, an embedding
of the tokenizer's indentation rule applied to the file's actual widths).
Dedenting line 149 by one space is the evident intent and makes the whole
file parse.  The definitions `anonValue`, `anonymize_data` and
`pipelineRun` therefore embed that intended one-space repair — the
behaviour the spec describes — and are marked as such; the theorems about
them characterise the intended program, not a run the shipped file can
perform.  `simplify_relationships` (lines 50-97) is valid as written and
is embedded from the source directly.
-/

/-- JSON values as produced by `json.load`.  Object keys are strings (JSON
guarantees this).  Fractional JSON numbers (Python floats) are not modelled;
none of the verified claims concerns them.  Booleans are a separate
constructor, as in JSON; where Python's `isinstance(-, int)` treats booleans
as integers the embedding accounts for it explicitly (`pyIsInt`). -/
inductive JValue where
  | null
  | bool (b : Bool)
  | int (n : Int)
  | str (s : String)
  | list (xs : List JValue)
  | obj (kvs : List (String × JValue))

mutual

/-- Boolean structural equality on JSON values (decidable equality is
derived from it below; the automatic derivation does not handle the nested
inductive). -/
def JValue.beq : JValue → JValue → Bool
  | .null, .null => true
  | .bool a, .bool b => a == b
  | .int a, .int b => a == b
  | .str a, .str b => a == b
  | .list xs, .list ys => JValue.beqList xs ys
  | .obj xs, .obj ys => JValue.beqObj xs ys
  | _, _ => false

/-- Elementwise `JValue.beq` on lists. -/
def JValue.beqList : List JValue → List JValue → Bool
  | [], [] => true
  | x :: xs, y :: ys => JValue.beq x y && JValue.beqList xs ys
  | _, _ => false

/-- Pairwise `JValue.beq` on object entry lists. -/
def JValue.beqObj : List (String × JValue) → List (String × JValue) → Bool
  | [], [] => true
  | (k, v) :: xs, (k', v') :: ys => k == k' && JValue.beq v v' && JValue.beqObj xs ys
  | _, _ => false

end

mutual

def JValue.beq_iff : ∀ a b, JValue.beq a b = true ↔ a = b
  | .null, b => by cases b <;> simp [JValue.beq]
  | .bool a, b => by cases b <;> simp [JValue.beq]
  | .int a, b => by cases b <;> simp [JValue.beq]
  | .str a, b => by cases b <;> simp [JValue.beq]
  | .list xs, b => by
    cases b <;> simp [JValue.beq]
    exact JValue.beqList_iff xs _
  | .obj xs, b => by
    cases b <;> simp [JValue.beq]
    exact JValue.beqObj_iff xs _

def JValue.beqList_iff : ∀ xs ys, JValue.beqList xs ys = true ↔ xs = ys
  | [], ys => by cases ys <;> simp [JValue.beqList]
  | x :: xs, ys => by
    cases ys with
    | nil => simp [JValue.beqList]
    | cons y ys =>
      simp [JValue.beqList, JValue.beq_iff x y, JValue.beqList_iff xs ys]

def JValue.beqObj_iff : ∀ xs ys, JValue.beqObj xs ys = true ↔ xs = ys
  | [], ys => by cases ys <;> simp [JValue.beqObj]
  | (k, v) :: xs, ys => by
    cases ys with
    | nil => simp [JValue.beqObj]
    | cons y ys =>
      obtain ⟨k', v'⟩ := y
      simp [JValue.beqObj, JValue.beq_iff v v', JValue.beqObj_iff xs ys]

end

instance : DecidableEq JValue := fun a b =>
  decidable_of_iff (JValue.beq a b = true) (JValue.beq_iff a b)

/-- A document: the root JSON object, a Python `dict` modelled as an ordered
association list (CPython dicts preserve insertion order). -/
abbrev Doc := List (String × JValue)

/-- Python `d[k]` read / `k in d`: first (only, for real dicts) binding. -/
def lookupDict (k : String) : Doc → Option JValue
  | [] => none
  | (k', v) :: rest => if k' = k then some v else lookupDict k rest

/-- Python `d[k] = v`: replaces the value of an existing key in place
(keeping its position), appends a fresh binding otherwise. -/
def dictSet (k : String) (v : JValue) : Doc → Doc
  | [] => [(k, v)]
  | (k', v') :: rest =>
    if k' = k then (k, v) :: rest else (k', v') :: dictSet k v rest

/-- Hashable scalar values, as they appear inside the tuples built by
`tuple(r)` at `src/main.py:88`.  Python booleans hash and compare equal to
the integers 0/1 (`bool` is a subclass of `int`), so they are normalised to
integers here; `None` is hashable. -/
inductive HScalar where
  | int (n : Int)
  | str (s : String)
  | none
deriving DecidableEq

/-- Conversion of one element of a relationship entry to a hashable scalar;
`TypeError` for unhashable elements (lists, dicts), exactly what hashing
`tuple(r)` raises. -/
def toHScalar : JValue → Except String HScalar
  | .int n => .ok (.int n)
  | .bool b => .ok (.int (if b then 1 else 0))
  | .str s => .ok (.str s)
  | .null => .ok .none
  | .list _ => .error "TypeError: unhashable type: 'list'"
  | .obj _ => .error "TypeError: unhashable type: 'dict'"

/-- Elementwise conversion of a list of entry elements. -/
def toHList : List JValue → Except String (List HScalar)
  | [] => .ok []
  | x :: xs =>
    match toHScalar x with
    | .error e => .error e
    | .ok h =>
      match toHList xs with
      | .error e => .error e
      | .ok hs => .ok (h :: hs)

/-- Python `tuple(r)` followed by hashing the result, as in
`tuple(r) not in seen` (`src/main.py:88`).  Lists iterate over their
elements, strings over their characters, dicts over their keys; integers,
booleans and `None` are not iterable and raise `TypeError`. -/
def pyTupleOf : JValue → Except String (List HScalar)
  | .list xs => toHList xs
  | .str s => .ok (s.data.map fun c => .str (String.singleton c))
  | .obj kvs => .ok (kvs.map fun kv => .str kv.1)
  | .int _ => .error "TypeError: 'int' object is not iterable"
  | .bool _ => .error "TypeError: 'bool' object is not iterable"
  | .null => .error "TypeError: 'NoneType' object is not iterable"

/-- Tuples of all entries of a relationships list, first failure wins
(the list comprehension at `src/main.py:88` converts entries left to
right). -/
def tupsOf : List JValue → Except String (List (List HScalar))
  | [] => .ok []
  | r :: rs =>
    match pyTupleOf r with
    | .error e => .error e
    | .ok t =>
      match tupsOf rs with
      | .error e => .error e
      | .ok ts => .ok (t :: ts)

/-- The deduplicating list comprehension at `src/main.py:88`:
`[r for r in l if tuple(r) not in seen and not seen.add(tuple(r))]`.
`seen` collects the tuples of kept entries. -/
def dedupFrom (seen : List (List HScalar)) : List JValue → Except String (List JValue)
  | [] => .ok []
  | r :: rs =>
    match pyTupleOf r with
    | .error e => .error e
    | .ok t =>
      if t ∈ seen then dedupFrom seen rs
      else
        match dedupFrom (t :: seen) rs with
        | .error e => .error e
        | .ok rest => .ok (r :: rest)

/-- State of the process-wide `random` generator (the Mersenne Twister),
modelled abstractly as an infinite stream of raw draws and a position.
Each call to `random.random()` / `random.randint` consumes one draw. -/
structure RState where
  stream : Nat → Nat
  pos : Nat

/-- Advance the generator by one draw. -/
def bump (g : RState) : RState := ⟨g.stream, g.pos + 1⟩

/-- Models `random.random()`, scaled to millionths of the unit interval: the
result represents `draw / 1000000 ∈ [0, 1)`.  (The claims below depend only
on the comparison with 0.2 and on determinism, not on float artefacts.) -/
def randomUnit (g : RState) : Nat × RState := (g.stream g.pos % 1000000, bump g)

/-- Models `random.randint(a, b)`: uniform on the closed range `[a, b]`. -/
def randint (a b : Int) (g : RState) : Int × RState :=
  (a + (Int.ofNat (g.stream g.pos)) % (b - a + 1), bump g)

/-- Models `random.seed(s)`: the generator state becomes a deterministic function
of the seed alone.  The concrete mixing function is an abstract stand-in
for the Mersenne Twister initialisation; no claim depends on its values. -/
def pySeed (s : Int) : RState := ⟨fun n => (s.natAbs + 1) * (n + 1), 0⟩

/-- The retention filter at `src/main.py:93`:
`[r for r in l if random.random() > 0.2]` — keeps an entry when the draw
exceeds 0.2 (i.e. 200000 millionths), consuming one draw per entry. -/
def retention : List JValue → RState → List JValue × RState
  | [], g => ([], g)
  | r :: rs, g =>
    let (u, g1) := randomUnit g
    let (rest, g2) := retention rs g1
    if 200000 < u then (r :: rest, g2) else (rest, g2)

/-- Embeds `simplify_relationships` (`src/main.py:50-97`).  The document is a dict
by the type of `Doc` (the code raises `ValueError` otherwise).  Missing
`relationships` key: unchanged document.  Non-list `relationships` value:
`ValueError`.  Otherwise optional deduplication, then the optional random
retention filter, then `data['relationships'] = simplified`. -/
def simplify_relationships (data : Doc) (remove_redundant remove_non_essential : Bool)
    (g : RState) : Except String (Doc × RState) :=
  match lookupDict "relationships" data with
  | none => .ok (data, g)
  | some rels =>
    match rels with
    | .list rs =>
      match (if remove_redundant then dedupFrom [] rs else .ok rs) with
      | .error e => .error e
      | .ok rs1 =>
        let (rs2, g') := if remove_non_essential then retention rs1 g else (rs1, g)
        .ok (dictSet "relationships" (.list rs2) data, g')
    | _ => .error "Relationships must be a list."

/-- Python `str.lower()` (the embedding covers ASCII, which is all the
key-name heuristics of the code compare against). -/
def pyLower (s : String) : String := ⟨s.data.map Char.toLower⟩

/-- Does `needle` occur at the start of `hay`? -/
def charsMatch : List Char → List Char → Bool
  | [], _ => true
  | c :: cs, hay =>
    match hay with
    | [] => false
    | h :: hs => c == h && charsMatch cs hs

/-- Does `needle` occur anywhere inside `hay`? -/
def charsHave (needle : List Char) : List Char → Bool
  | [] => charsMatch needle []
  | b :: bs => charsMatch needle (b :: bs) || charsHave needle bs

/-- Python's substring test `needle in hay` on strings. -/
def pyIn (needle hay : String) : Bool := charsHave needle.data hay.data

/-- Python `isinstance(v, str)` for JSON values. -/
def isStr : JValue → Bool
  | .str _ => true
  | _ => false

/-- Python `isinstance(v, int)` for JSON values: `bool` is a subclass of
`int` in Python, so booleans count as integers here. -/
def pyIsInt : JValue → Bool
  | .int _ => true
  | .bool _ => true
  | _ => false

/-- State of the third-party `Faker` synthetic-data generator, modelled as
a counter; each generated value consumes one tick.  The concrete strings
below are abstract stand-ins for Faker's outputs — the code treats them as
opaque, and no claim depends on their exact text (only on the
unique-identifier format for `uuid4`). -/
structure FState where
  ctr : Nat
deriving DecidableEq

/-- Models `fake.name()`. -/
def fakeName (f : FState) : String × FState :=
  ("Name" ++ toString f.ctr, ⟨f.ctr + 1⟩)

/-- Models `fake.email()`. -/
def fakeEmail (f : FState) : String × FState :=
  ("user" ++ toString f.ctr ++ "@example.com", ⟨f.ctr + 1⟩)

/-- Models `fake.phone_number()`. -/
def fakePhone (f : FState) : String × FState :=
  ("555-" ++ toString f.ctr, ⟨f.ctr + 1⟩)

/-- Models `fake.address()`. -/
def fakeAddr (f : FState) : String × FState :=
  ("Street" ++ toString f.ctr, ⟨f.ctr + 1⟩)

/-- Models `fake.city()`. -/
def fakeCity (f : FState) : String × FState :=
  ("City" ++ toString f.ctr, ⟨f.ctr + 1⟩)

/-- Models `fake.word()`. -/
def fakeWord (f : FState) : String × FState :=
  ("word" ++ toString f.ctr, ⟨f.ctr + 1⟩)

/-- The sixteen hexadecimal digit characters. -/
def hexChars : List Char := "0123456789abcdef".data

/-- Is `c` a lowercase hexadecimal digit? -/
def isHexCh (c : Char) : Bool := hexChars.contains c

/-- Are all characters hexadecimal digits? -/
def allHex (cs : List Char) : Bool := cs.all isHexCh

/-- The hexadecimal digit character for `d` (mod 16). -/
def hexDigit (d : Nat) : Char := hexChars.getD (d % 16) '0'

/-- A version-4 UUID string determined by `n`: the model's stand-in for the
randomness of `fake.uuid4()`; only the final twelve hexadecimal digits vary
with `n`. -/
def uuidFromNat (n : Nat) : String :=
  ⟨'0' :: '0' :: '0' :: '0' :: '0' :: '0' :: '0' :: '0' :: '-' ::
   '0' :: '0' :: '0' :: '0' :: '-' ::
   '4' :: '0' :: '0' :: '0' :: '-' ::
   '8' :: '0' :: '0' :: '0' :: '-' ::
   [hexDigit (n / 16 ^ 11 % 16), hexDigit (n / 16 ^ 10 % 16),
    hexDigit (n / 16 ^ 9 % 16), hexDigit (n / 16 ^ 8 % 16),
    hexDigit (n / 16 ^ 7 % 16), hexDigit (n / 16 ^ 6 % 16),
    hexDigit (n / 16 ^ 5 % 16), hexDigit (n / 16 ^ 4 % 16),
    hexDigit (n / 16 ^ 3 % 16), hexDigit (n / 16 ^ 2 % 16),
    hexDigit (n / 16 ^ 1 % 16), hexDigit (n % 16)]⟩

/-- Does `s` have the shape of a canonical version-4 UUID:
36 characters, hyphens at positions 8, 13, 18 and 23, the version digit 4
at position 14, hexadecimal digits everywhere else? -/
def isUuid (s : String) : Bool :=
  let cs := s.data
  (cs.length == 36) &&
  allHex (cs.take 8) && (cs.getD 8 '?' == '-') &&
  allHex ((cs.drop 9).take 4) && (cs.getD 13 '?' == '-') &&
  (cs.getD 14 '?' == '4') && allHex ((cs.drop 15).take 3) && (cs.getD 18 '?' == '-') &&
  allHex ((cs.drop 19).take 4) && (cs.getD 23 '?' == '-') &&
  allHex (cs.drop 24)

/-- Models `fake.uuid4()`. -/
def fakeUuid4 (f : FState) : String × FState :=
  (uuidFromNat f.ctr, ⟨f.ctr + 1⟩)

/-- Models `Faker.seed(seed)` (`src/main.py:115`): with an integer seed the
generator state becomes a deterministic function of the seed; with `None`
Faker reseeds from fresh entropy, modelled by keeping the ambient
(arbitrary) state. -/
def fakerSeed (seed : Option Int) (f : FState) : FState :=
  match seed with
  | some s => ⟨s.natAbs⟩
  | none => f

/-- Combined generator state threaded through the anonymizer: the
process-wide `random` generator and the Faker generator. -/
abbrev St := RState × FState

/-- The per-field substitution that `src/main.py:138-167` evidently
intends: given the level, the field's key and original value, produce the
new value.  As shipped those lines do not parse (line 149 at 21 spaces
against line 162 at 20 — see `anonLoopIndents`); this definition embeds
the one-space repair of line 149, under which the `if/elif` chains read
exactly as the spec describes — including that an unrecognised level
leaves the value untouched and that `isinstance(value, int)` also
captures booleans. -/
def anonValue (level key : String) (v : JValue) (st : St) : JValue × St :=
  let (g, fk) := st
  if level = "low" then
    if isStr v && pyIn "name" (pyLower key) then
      let (s, fk') := fakeName fk; (.str s, (g, fk'))
    else if isStr v && pyIn "email" (pyLower key) then
      let (s, fk') := fakeEmail fk; (.str s, (g, fk'))
    else if isStr v && pyIn "phone" (pyLower key) then
      let (s, fk') := fakePhone fk; (.str s, (g, fk'))
    else (v, st)
  else if level = "medium" then
    if isStr v then
      if pyIn "name" (pyLower key) then
        let (s, fk') := fakeName fk; (.str s, (g, fk'))
      else if pyIn "email" (pyLower key) then
        let (s, fk') := fakeEmail fk; (.str s, (g, fk'))
      else if pyIn "phone" (pyLower key) then
        let (s, fk') := fakePhone fk; (.str s, (g, fk'))
      else if pyIn "address" (pyLower key) then
        let (s, fk') := fakeAddr fk; (.str s, (g, fk'))
      else if pyIn "city" (pyLower key) then
        let (s, fk') := fakeCity fk; (.str s, (g, fk'))
      else
        let (s, fk') := fakeWord fk; (.str s, (g, fk'))
    else if pyIsInt v then
      let (m, g') := randint 0 100 g; (.int m, (g', fk))
    else (v, st)
  else if level = "high" then
    let (s, fk') := fakeUuid4 fk; (.str s, (g, fk'))
  else (v, st)

/-- The record loop at `src/main.py:138`: every field of the record is
rewritten in place, left to right. -/
def anonRecord (level : String) : List (String × JValue) → St → List (String × JValue) × St
  | [], st => ([], st)
  | (k, v) :: rest, st =>
    let (v', st1) := anonValue level k v st
    let (rest', st2) := anonRecord level rest st1
    ((k, v') :: rest', st2)

/-- The record-validation-and-rewrite loop at `src/main.py:133-136`: each
record must be a dict (`ValueError` otherwise), and is then anonymized. -/
def anonRecords (level : String) : List JValue → St → Except String (List JValue × St)
  | [], st => .ok ([], st)
  | r :: rest, st =>
    match r with
    | .obj kvs =>
      let (kvs', st1) := anonRecord level kvs st
      match anonRecords level rest st1 with
      | .error e => .error e
      | .ok (rest', st2) => .ok (.obj kvs' :: rest', st2)
    | _ => .error "Each record in the dataset should be a dictionary."

/-- The dataset loop at `src/main.py:129-132`: each dataset must be a list
(`ValueError` otherwise); validation is interleaved with the rewriting, as
in the code. -/
def anonDatasets (level : String) : List JValue → St → Except String (List JValue × St)
  | [], st => .ok ([], st)
  | ds :: rest, st =>
    match ds with
    | .list recs =>
      match anonRecords level recs st with
      | .error e => .error e
      | .ok (recs', st1) =>
        match anonDatasets level rest st1 with
        | .error e => .error e
        | .ok (rest', st2) => .ok (.list recs' :: rest', st2)
    | _ => .error "Each dataset should be a list."

/-- The conditional seeding at `src/main.py:111-112`:
`if seed is not None: random.seed(seed)` — with a seed the process-wide
generator is reset deterministically, without one it keeps its state. -/
def seedR (seed : Option Int) (g : RState) : RState :=
  match seed with
  | some s => pySeed s
  | none => g

/-- Embeds the evidently intended `anonymize_data` (`src/main.py:99-169`,
with line 149 dedented one space; the shipped module fails CPython's
indentation check at line 162 and never loads — see `anonLoopIndents`).
`random.seed(seed)` is called only when a seed is given
(`src/main.py:111-112`); `Faker.seed(seed)` is always called
(`src/main.py:115`).  Missing `datasets` key: unchanged document.
Non-list `datasets` value: `ValueError`.  Otherwise the nested loops
rewrite every record value in place. -/
def anonymize_data (data : Doc) (level : String) (seed : Option Int)
    (g : RState) (fk : FState) : Except String (Doc × RState × FState) :=
  let g0 := seedR seed g
  let fk0 := fakerSeed seed fk
  match lookupDict "datasets" data with
  | none => .ok (data, g0, fk0)
  | some ds =>
    match ds with
    | .list dss =>
      match anonDatasets level dss (g0, fk0) with
      | .error e => .error e
      | .ok (dss', st') => .ok (dictSet "datasets" (.list dss') data, st')
    | _ => .error "Datasets must be a list."

/-- The driver's sequencing (`main`, `src/main.py:198-205`) of the
intended program (the shipped module never loads, so no real run reaches
`main` — see `anonLoopIndents`): simplify the relationships, then — when
the anonymize flag is set — anonymize with the given level and seed.
Loading and saving are not modelled; `g` is the state the process-wide
random generator happens to be in when the run starts (a fresh Python
process seeds it from OS entropy), `fk` likewise for Faker.  Note the
seed reaches the random generator only inside `anonymize_data`, after
`simplify_relationships` has already run. -/
def pipelineRun (data : Doc) (remove_redundant remove_non_essential anonymize : Bool)
    (level : String) (seed : Option Int) (g : RState) (fk : FState) : Except String Doc :=
  match simplify_relationships data remove_redundant remove_non_essential g with
  | .error e => .error e
  | .ok (d1, g1) =>
    if anonymize then
      match anonymize_data d1 level seed g1 fk with
      | .error e => .error e
      | .ok (d2, _) => .ok d2
    else .ok d1

/-- Is the value a JSON object (a mapping)? -/
def isObjJ : JValue → Bool
  | .obj _ => true
  | _ => false

/-- Is the value a JSON array whose elements are all objects (a dataset of
records)? -/
def isRecListJ : JValue → Bool
  | .list recs => recs.all isObjJ
  | _ => false

/-- Modelled from the spec: "a sequence of sequences of mappings" — the
shape the spec requires of `datasets`, used to compare the code's
validation behaviour against the spec's words. -/
def wellShapedDatasets : JValue → Bool
  | .list dss => dss.all isRecListJ
  | _ => false

/-- The ordered field names of a record; `none` if it is not an object. -/
def recShape : JValue → Option (List String)
  | .obj kvs => some (kvs.map Prod.fst)
  | _ => none

/-- The field names of every record in a dataset; `none` if some record is
not an object. -/
def recsShape : List JValue → Option (List (List String))
  | [] => some []
  | r :: rest =>
    match recShape r, recsShape rest with
    | some a, some b => some (a :: b)
    | _, _ => none

/-- The shapes of a list of datasets; `none` on a non-list dataset. -/
def dssShape : List JValue → Option (List (List (List String)))
  | [] => some []
  | ds :: rest =>
    match (match ds with | .list recs => recsShape recs | _ => none), dssShape rest with
    | some a, some b => some (a :: b)
    | _, _ => none

/-- The structural skeleton of a `datasets` value: for each dataset, for
each record, the ordered list of its field names; `none` when the value is
not a list of lists of objects. -/
def datasetsShape : JValue → Option (List (List (List String)))
  | .list dss => dssShape dss
  | _ => none

/-- Lifts a per-field relation `R key oldValue newValue` through the
datasets / records / fields nesting: the old and new dataset lists
correspond elementwise, with equal field names in equal order. -/
def DatasetsRel (R : String → JValue → JValue → Prop) (dss dss' : List JValue) : Prop :=
  List.Forall₂ (fun ds ds' => ∃ recs recs', ds = .list recs ∧ ds' = .list recs' ∧
    List.Forall₂ (fun r r' => ∃ kvs kvs', r = .obj kvs ∧ r' = .obj kvs' ∧
      List.Forall₂ (fun p q => q.1 = p.1 ∧ R p.1 p.2 q.2) kvs kvs') recs recs') dss dss'

/-- Modelled from the spec: the `low`-level per-field contract — a text
value whose key contains "name" / "email" / "phone" (first match in that
order, case-insensitively) becomes a synthetic name / email / phone number;
every other field keeps its value. -/
def lowSpec (k : String) (v v' : JValue) : Prop :=
  if isStr v && pyIn "name" (pyLower k) then ∃ f : FState, v' = .str (fakeName f).1
  else if isStr v && pyIn "email" (pyLower k) then ∃ f : FState, v' = .str (fakeEmail f).1
  else if isStr v && pyIn "phone" (pyLower k) then ∃ f : FState, v' = .str (fakePhone f).1
  else v' = v

/-- The `medium`-level per-field contract for non-text values: integer
values — which for Python's `isinstance` include booleans — become an
integer in the closed range `[0, 100]`; values that are neither text nor
integer nor boolean keep their value. -/
def medSpec (_ : String) (v v' : JValue) : Prop :=
  (pyIsInt v = true → ∃ m : Int, v' = .int m ∧ 0 ≤ m ∧ m ≤ 100) ∧
  (isStr v = false → pyIsInt v = false → v' = v)

/-- The `high`-level per-field contract: every value becomes a string in
the synthetic unique-identifier (UUID) format. -/
def highSpec (_ : String) (_ v' : JValue) : Prop :=
  ∃ s : String, v' = .str s ∧ isUuid s = true

/-- The deduplication comprehension with the tuple conversions already
performed: pure companion of `dedupFrom` on entry/tuple pairs. -/
def dedupGo (seen : List (List HScalar)) : List (JValue × List HScalar) → List JValue
  | [] => []
  | (r, t) :: rest =>
    if t ∈ seen then dedupGo seen rest else r :: dedupGo (t :: seen) rest

/-- Modelled from the spec: "keeping only the first occurrence of each
distinct tuple, preserving original order of first occurrences" — keep the
head and drop every later entry whose tuple equals the head's tuple. -/
def specDedup : List (JValue × List HScalar) → List JValue
  | [] => []
  | (r, t) :: rest => r :: specDedup (rest.filter fun p => !(p.2 == t))
termination_by prs => prs.length
decreasing_by
  simp only [List.length_cons]
  exact Nat.lt_succ_of_le (List.length_filter_le _ _)

/-- One step of CPython's tokenizer indentation rule (Python Language
Reference, lexical analysis): the stack holds the currently open
indentation widths; a statement line indented deeper than the top opens a
block (push), a line at the top's width continues it, and a shallower
line closes blocks (pop) and must land exactly on an enclosing width —
otherwise the tokenizer rejects the file with `IndentationError: unindent
does not match any outer indentation level`. -/
def indentStep : List Nat → Nat → Option (List Nat)
  | [], _ => none
  | top :: rest, i =>
    if top < i then some (i :: top :: rest)
    else if top = i then some (top :: rest)
    else
      match rest with
      | [] => none
      | next :: rest2 => if next < i then none else indentStep (next :: rest2) i

/-- Runs `indentStep` over the indentation widths of successive statement
lines; `false` as soon as one line is rejected. -/
def indentsAccepted : List Nat → List Nat → Bool
  | _, [] => true
  | stack, i :: rest =>
    match indentStep stack i with
    | some stack2 => indentsAccepted stack2 rest
    | none => false

/-- Does CPython's tokenizer accept this sequence of statement-line
indentation widths (starting from the enclosing level)? -/
def pyIndentsAccepted (inds : List Nat) : Bool := indentsAccepted [0] inds

/-- The leading-space widths of the successive statement lines of
`src/main.py:129-169` — the dataset/record loops of `anonymize_data`
through `return data`.  Blank lines and comment-only lines (140, 148,
164, 166, 168) produce no indentation tokens and are omitted; the region
contains no continuation lines or multi-line strings, and the file has no
tabs.  In order, the widths belong to lines 129, 130, 131, 132, 133, 134,
135, 136, 138, 139, 141, 142, 143, 144, 145, 146, 147, 149, 150, 151,
152, 153, 154, 155, 156, 157, 158, 159, 160, 161, 162, 163, 165, 167 and
169.  Entry 17 is line 149 (`if isinstance(value, str):`, 21 spaces);
entry 30 is line 162 (`elif isinstance(value, int):`, 20 spaces), which
dedents to a width that is on no enclosing level — CPython rejects the
module here, before any statement of the program runs. -/
def anonLoopIndents : List Nat :=
  [4, 8, 12, 12, 8, 12, 16, 16, 12, 16, 20, 24, 20, 24, 20, 24, 16, 21,
   24, 28, 24, 28, 24, 28, 24, 28, 24, 28, 24, 28, 20, 24, 16, 20, 4]

/-- The same sequence with the single deviant width repaired: entry 17
(line 149) dedented from 21 to 20 spaces, the evidently intended width of
the `if`/`elif` chain that line 162 continues; the tokenizer accepts this
sequence, and the whole repaired file parses. -/
def anonLoopIndentsRepaired : List Nat :=
  [4, 8, 12, 12, 8, 12, 16, 16, 12, 16, 20, 24, 20, 24, 20, 24, 16, 20,
   24, 28, 24, 28, 24, 28, 24, 28, 24, 28, 24, 28, 20, 24, 16, 20, 4]

theorem lookupDict_dictSet_self (k : String) (v : JValue) (d : Doc) :
    lookupDict k (dictSet k v d) = some v := by
  induction d with
  | nil => simp [dictSet, lookupDict]
  | cons p rest ih =>
    obtain ⟨k', v'⟩ := p
    by_cases h : k' = k
    · simp [dictSet, h, lookupDict]
    · simp [dictSet, h, lookupDict, ih]

theorem lookupDict_dictSet_ne (k k' : String) (v : JValue) (d : Doc) (h : k ≠ k') :
    lookupDict k (dictSet k' v d) = lookupDict k d := by
  induction d with
  | nil => simp [dictSet, lookupDict, Ne.symm h]
  | cons p rest ih =>
    obtain ⟨a, b⟩ := p
    by_cases ha : a = k'
    · subst ha
      simp [dictSet, lookupDict, Ne.symm h]
    · by_cases hak : a = k
      · simp [dictSet, ha, lookupDict, hak, h]
      · simp [dictSet, ha, lookupDict, hak, ih]

theorem dictSet_idem (k : String) (v : JValue) (d : Doc) :
    dictSet k v (dictSet k v d) = dictSet k v d := by
  induction d with
  | nil => simp [dictSet]
  | cons p rest ih =>
    obtain ⟨a, b⟩ := p
    by_cases ha : a = k
    · simp [dictSet, ha]
    · simp [dictSet, ha, ih]

theorem length_dictSet_of_lookup (k : String) (u v : JValue) (d : Doc)
    (h : lookupDict k d = some u) : (dictSet k v d).length = d.length := by
  induction d with
  | nil => simp [lookupDict] at h
  | cons p rest ih =>
    obtain ⟨a, b⟩ := p
    by_cases ha : a = k
    · simp [dictSet, ha]
    · simp [lookupDict, ha] at h
      simp [dictSet, ha, ih h]

theorem dictSet_getElem (k : String) (v : JValue) (d : Doc) (i : Nat)
    (hi : i < d.length) (hi' : i < (dictSet k v d).length) :
    (dictSet k v d)[i].1 = d[i].1 ∧ (d[i].1 ≠ k → (dictSet k v d)[i] = d[i]) := by
  induction d generalizing i with
  | nil => simp at hi
  | cons p rest ih =>
    obtain ⟨a, b⟩ := p
    by_cases ha : a = k
    · subst ha
      have hset : dictSet a v ((a, b) :: rest) = (a, v) :: rest := by simp [dictSet]
      cases i with
      | zero => simp_all
      | succ j =>
        simp only [hset] at hi' ⊢
        simp
    · have hset : dictSet k v ((a, b) :: rest) = (a, b) :: dictSet k v rest := by
        simp [dictSet, ha]
      cases i with
      | zero => simp [hset]
      | succ j =>
        simp only [hset, List.getElem_cons_succ]
        have hj : j < rest.length := by simpa using hi
        have hj' : j < (dictSet k v rest).length := by
          simpa [hset] using hi'
        exact ih j hj hj'

/-- C7: a document with no `relationships` key is returned unchanged by
`simplify_relationships`, whatever the two flags are (and whatever state
the random generator is in). -/
theorem no_relationships_key_noop (data : Doc) (rr rne : Bool) (g : RState)
    (h : lookupDict "relationships" data = none) :
    simplify_relationships data rr rne g = .ok (data, g) := by
  simp [simplify_relationships, h]

theorem no_relationships_key_noop_witness :
    lookupDict "relationships" [("datasets", .list [.list []])] = none ∧
    simplify_relationships [("datasets", .list [.list []])] true true ⟨fun _ => 0, 0⟩ =
      .ok ([("datasets", .list [.list []])], ⟨fun _ => 0, 0⟩) :=
  ⟨rfl, no_relationships_key_noop _ true true _ rfl⟩

/-- C10: deduplication is partial beyond the documented validation: on a
`relationships` list containing a non-iterable entry (an integer), or an
entry containing an unhashable element (a nested list), the tuple
conversion of `src/main.py:88` raises a `TypeError`, which is distinct
from the structural validation error of `src/main.py:77`. -/
theorem dedup_partial_on_bad_entries :
    simplify_relationships [("relationships", .list [.int 1])] true false ⟨fun _ => 0, 0⟩ =
      .error "TypeError: 'int' object is not iterable" ∧
    simplify_relationships [("relationships", .list [.list [.list [.str "x"], .str "y"]])]
        true false ⟨fun _ => 0, 0⟩ =
      .error "TypeError: unhashable type: 'list'" ∧
    "TypeError: 'int' object is not iterable" ≠ "Relationships must be a list." ∧
    "TypeError: unhashable type: 'list'" ≠ "Relationships must be a list." :=
  ⟨rfl, rfl, by decide, by decide⟩

theorem tupsOf_length : ∀ rs ts, tupsOf rs = .ok ts → ts.length = rs.length := by
  intro rs
  induction rs with
  | nil => intro ts h; simp [tupsOf] at h; simp [← h]
  | cons r rest ih =>
    intro ts h
    simp only [tupsOf] at h
    cases hp : pyTupleOf r with
    | error e => rw [hp] at h; exact absurd h (by simp)
    | ok t =>
      rw [hp] at h
      cases hq : tupsOf rest with
      | error e => rw [hq] at h; exact absurd h (by simp)
      | ok ts0 =>
        rw [hq] at h
        cases h
        simp [ih ts0 hq]

theorem dedupFrom_eq_dedupGo : ∀ rs ts seen, tupsOf rs = .ok ts →
    dedupFrom seen rs = .ok (dedupGo seen (rs.zip ts)) := by
  intro rs
  induction rs with
  | nil =>
    intro ts seen h
    simp [tupsOf] at h
    simp [← h, dedupFrom, dedupGo]
  | cons r rest ih =>
    intro ts seen h
    simp only [tupsOf] at h
    cases hp : pyTupleOf r with
    | error e => rw [hp] at h; exact absurd h (by simp)
    | ok t =>
      rw [hp] at h
      cases hq : tupsOf rest with
      | error e => rw [hq] at h; exact absurd h (by simp)
      | ok ts0 =>
        rw [hq] at h
        cases h
        simp only [dedupFrom, hp, List.zip_cons_cons, dedupGo]
        by_cases hmem : t ∈ seen
        · simp [hmem, ih ts0 seen hq, List.zip]
        · simp [hmem, ih ts0 (t :: seen) hq, List.zip]

theorem dedupGo_eq_specDedup : ∀ prs seen,
    dedupGo seen prs = specDedup (prs.filter fun p => decide (p.2 ∉ seen)) := by
  intro prs
  induction prs with
  | nil => intro seen; simp [dedupGo, specDedup]
  | cons p rest ih =>
    intro seen
    obtain ⟨r, t⟩ := p
    by_cases hmem : t ∈ seen
    · simp [dedupGo, hmem, List.filter_cons, ih seen]
    · have hfil : (rest.filter fun p => decide (p.2 ∉ seen)).filter
          (fun p => !(p.2 == t)) = rest.filter fun p => decide (p.2 ∉ t :: seen) := by
        rw [List.filter_filter]
        apply List.filter_congr
        intro a _
        by_cases hat : a.2 = t
        · simp [hat]
        · by_cases has : a.2 ∈ seen <;> simp [hat, has]
      simp only [dedupGo, List.filter_cons]
      simp only [hmem, if_false, not_false_eq_true, decide_True, if_true]
      simp only [specDedup]
      rw [hfil, ih (t :: seen)]

theorem specDedup_sublist : ∀ n prs, prs.length ≤ n →
    List.Sublist (specDedup prs) (prs.map Prod.fst) := by
  intro n
  induction n with
  | zero =>
    intro prs h
    rw [List.length_eq_zero.mp (Nat.le_zero.mp h)]
    simp [specDedup]
  | succ m ih =>
    intro prs h
    cases prs with
    | nil => simp [specDedup]
    | cons p rest =>
      obtain ⟨r, t⟩ := p
      rw [specDedup, List.map_cons]
      apply List.Sublist.cons₂
      have h1 : List.Sublist (specDedup (rest.filter fun q => !(q.2 == t)))
          ((rest.filter fun q => !(q.2 == t)).map Prod.fst) := by
        apply ih
        calc (rest.filter fun q => !(q.2 == t)).length ≤ rest.length :=
              List.length_filter_le _ _
          _ ≤ m := by simpa using h
      exact h1.trans ((List.filter_sublist rest).map Prod.fst)

/-- C3: with `remove_redundant` set (and the random filter off), whenever
the tuple conversion of every entry succeeds, `simplify_relationships`
replaces the `relationships` list with the subsequence keeping exactly the
first occurrence of each distinct entry, entries compared as ordered
tuples (`specDedup`), preserving the order of first occurrences; the
result is a sublist (order-preserving subsequence) of the original. -/
theorem dedup_first_occurrence (data : Doc) (rs : List JValue)
    (ts : List (List HScalar)) (g : RState)
    (hrel : lookupDict "relationships" data = some (.list rs))
    (hts : tupsOf rs = .ok ts) :
    simplify_relationships data true false g =
      .ok (dictSet "relationships" (.list (specDedup (rs.zip ts))) data, g) ∧
    List.Sublist (specDedup (rs.zip ts)) rs := by
  constructor
  · have h1 := dedupFrom_eq_dedupGo rs ts [] hts
    have h2 := dedupGo_eq_specDedup (rs.zip ts) []
    simp only [List.not_mem_nil, not_false_eq_true, decide_True, List.filter_true] at h2
    rw [h2] at h1
    simp [simplify_relationships, hrel, h1]
  · have hsub := specDedup_sublist (rs.zip ts).length (rs.zip ts) le_rfl
    rwa [List.map_fst_zip rs ts (le_of_eq (tupsOf_length rs ts hts).symm)] at hsub

theorem dedup_first_occurrence_witness :
    lookupDict "relationships"
      [("relationships", .list [.list [.str "a", .str "b"], .list [.str "a", .str "b"],
        .list [.str "c", .str "d"]]), ("datasets", .list [])] =
      some (.list [.list [.str "a", .str "b"], .list [.str "a", .str "b"],
        .list [.str "c", .str "d"]]) ∧
    tupsOf [.list [.str "a", .str "b"], .list [.str "a", .str "b"], .list [.str "c", .str "d"]] =
      .ok [[.str "a", .str "b"], [.str "a", .str "b"], [.str "c", .str "d"]] ∧
    simplify_relationships
      [("relationships", .list [.list [.str "a", .str "b"], .list [.str "a", .str "b"],
        .list [.str "c", .str "d"]]), ("datasets", .list [])] true false ⟨fun _ => 0, 0⟩ =
      .ok ([("relationships", .list [.list [.str "a", .str "b"], .list [.str "c", .str "d"]]),
        ("datasets", .list [])], ⟨fun _ => 0, 0⟩) := by
  refine ⟨rfl, rfl, ?_⟩
  have h := (dedup_first_occurrence
    [("relationships", .list [.list [.str "a", .str "b"], .list [.str "a", .str "b"],
      .list [.str "c", .str "d"]]), ("datasets", .list [])]
    [.list [.str "a", .str "b"], .list [.str "a", .str "b"], .list [.str "c", .str "d"]]
    [[.str "a", .str "b"], [.str "a", .str "b"], [.str "c", .str "d"]]
    ⟨fun _ => 0, 0⟩ rfl rfl).1
  have hval : specDedup ([.list [.str "a", .str "b"], .list [.str "a", .str "b"],
      .list [.str "c", .str "d"]].zip
        [[.str "a", .str "b"], [.str "a", .str "b"], [.str "c", .str "d"]]) =
      [.list [.str "a", .str "b"], .list [.str "c", .str "d"]] := by
    have h2 := dedupGo_eq_specDedup
      ([.list [.str "a", .str "b"], .list [.str "a", .str "b"],
        .list [.str "c", .str "d"]].zip
        [[.str "a", .str "b"], [.str "a", .str "b"], [.str "c", .str "d"]]) []
    simp only [List.not_mem_nil, not_false_eq_true, decide_True, List.filter_true] at h2
    rw [← h2]
    rfl
  rw [hval] at h
  exact h

theorem dedupFrom_inv : ∀ l seen l', dedupFrom seen l = .ok l' →
    ∃ ts', tupsOf l' = .ok ts' ∧ ts'.Nodup ∧ ∀ t ∈ ts', t ∉ seen := by
  intro l
  induction l with
  | nil =>
    intro seen l' h
    simp only [dedupFrom, Except.ok.injEq] at h
    subst h
    exact ⟨[], rfl, List.nodup_nil, by simp⟩
  | cons r rest ih =>
    intro seen l' h
    simp only [dedupFrom] at h
    cases hp : pyTupleOf r with
    | error e => rw [hp] at h; exact absurd h (by simp)
    | ok t =>
      simp only [hp] at h
      by_cases hmem : t ∈ seen
      · rw [if_pos hmem] at h
        exact ih seen l' h
      · rw [if_neg hmem] at h
        cases hd : dedupFrom (t :: seen) rest with
        | error e => rw [hd] at h; exact absurd h (by simp)
        | ok tail =>
          rw [hd] at h
          cases h
          obtain ⟨ts0, hts0, hnodup, hnot⟩ := ih (t :: seen) tail hd
          refine ⟨t :: ts0, ?_, ?_, ?_⟩
          · simp [tupsOf, hp, hts0]
          · refine List.nodup_cons.mpr ⟨?_, hnodup⟩
            intro hmem0
            exact (hnot t hmem0) (List.mem_cons_self t seen)
          · intro x hx
            rcases List.mem_cons.mp hx with h1 | h1
            · exact h1 ▸ hmem
            · intro hxs
              exact (hnot x h1) (List.mem_cons_of_mem t hxs)

theorem dedupFrom_fixed : ∀ l' ts' seen, tupsOf l' = .ok ts' → ts'.Nodup →
    (∀ t ∈ ts', t ∉ seen) → dedupFrom seen l' = .ok l' := by
  intro l'
  induction l' with
  | nil => intro ts' seen h _ _; simp [dedupFrom]
  | cons r rest ih =>
    intro ts' seen h hnodup hnot
    simp only [tupsOf] at h
    cases hp : pyTupleOf r with
    | error e => rw [hp] at h; exact absurd h (by simp)
    | ok t =>
      rw [hp] at h
      cases hq : tupsOf rest with
      | error e => rw [hq] at h; exact absurd h (by simp)
      | ok ts0 =>
        rw [hq] at h
        cases h
        have hmem : t ∉ seen := hnot t (List.mem_cons_self t ts0)
        have htail : dedupFrom (t :: seen) rest = .ok rest := by
          apply ih ts0 (t :: seen) hq (List.nodup_cons.mp hnodup).2
          intro x hx
          intro hxts
          rcases List.mem_cons.mp hxts with h1 | h1
          · exact (List.nodup_cons.mp hnodup).1 (h1 ▸ hx)
          · exact (hnot x (List.mem_cons_of_mem t hx)) h1
        simp [dedupFrom, hp, hmem, htail]

/-- C8: deduplication is idempotent — with `remove_redundant` set and
`remove_non_essential` unset, applying `simplify_relationships` to its own
output reproduces that output exactly (same document, same generator
state). -/
theorem dedup_idempotent (data : Doc) (rs : List JValue) (g : RState) (out : Doc × RState)
    (hrel : lookupDict "relationships" data = some (.list rs))
    (h1 : simplify_relationships data true false g = .ok out) :
    simplify_relationships out.1 true false out.2 = .ok out := by
  simp only [simplify_relationships, hrel, if_true] at h1
  cases hd : dedupFrom [] rs with
  | error e => rw [hd] at h1; exact absurd h1 (by simp)
  | ok l' =>
    rw [hd] at h1
    simp only [if_neg Bool.false_ne_true] at h1
    cases h1
    have hlook : lookupDict "relationships" (dictSet "relationships" (.list l') data) =
        some (.list l') := lookupDict_dictSet_self _ _ _
    obtain ⟨ts', hts', hnodup, _⟩ := dedupFrom_inv rs [] l' hd
    have hfix : dedupFrom [] l' = .ok l' :=
      dedupFrom_fixed l' ts' [] hts' hnodup (by simp)
    simp only [simplify_relationships, hlook, if_true, hfix]
    simp [dictSet_idem]

theorem dedup_idempotent_witness :
    lookupDict "relationships"
      [("relationships", .list [.list [.str "a"], .list [.str "a"]])] =
      some (.list [.list [.str "a"], .list [.str "a"]]) ∧
    simplify_relationships [("relationships", .list [.list [.str "a"], .list [.str "a"]])]
      true false ⟨fun _ => 0, 0⟩ =
      .ok ([("relationships", .list [.list [.str "a"]])], ⟨fun _ => 0, 0⟩) ∧
    simplify_relationships [("relationships", .list [.list [.str "a"]])]
      true false ⟨fun _ => 0, 0⟩ =
      .ok ([("relationships", .list [.list [.str "a"]])], ⟨fun _ => 0, 0⟩) :=
  ⟨rfl, rfl,
    dedup_idempotent [("relationships", .list [.list [.str "a"], .list [.str "a"]])]
      [.list [.str "a"], .list [.str "a"]] ⟨fun _ => 0, 0⟩
      ([("relationships", .list [.list [.str "a"]])], ⟨fun _ => 0, 0⟩) rfl rfl⟩

theorem anonymize_ok_shape (data : Doc) (lvl : String) (seed : Option Int) (g : RState)
    (fk : FState) (d' : Doc) (st : RState × FState)
    (h : anonymize_data data lvl seed g fk = .ok (d', st)) :
    d' = data ∨ ∃ dss' : List JValue, d' = dictSet "datasets" (.list dss') data := by
  simp only [anonymize_data] at h
  split at h
  · exact Or.inl (by cases h; rfl)
  · split at h
    · split at h
      · exact absurd h (by simp)
      · cases h
        exact Or.inr ⟨_, rfl⟩
    · exact absurd h (by simp)

theorem anonymize_keeps_other_keys (data : Doc) (lvl : String) (seed : Option Int)
    (g : RState) (fk : FState) (d' : Doc) (st : RState × FState) (k : String)
    (h : anonymize_data data lvl seed g fk = .ok (d', st)) (hk : k ≠ "datasets") :
    lookupDict k d' = lookupDict k data := by
  rcases anonymize_ok_shape data lvl seed g fk d' st h with h1 | ⟨dss', h1⟩
  · rw [h1]
  · rw [h1, lookupDict_dictSet_ne k "datasets" _ _ hk]

/-- Intended-parse property: the retained `relationships` entries of a
run of the intended pipeline are a deterministic function of the document
and of the state the process-wide random generator is in when the run
starts — not of the seed: two runs from the same generator state agree on
the retained entries even with different (or equal) seeds, because
`random.seed` is only invoked inside `anonymize_data`, after the
retention filter has already drawn. -/
theorem retention_state_deterministic (data : Doc) (rr rne : Bool) (lvl : String)
    (s1 s2 : Option Int) (g : RState) (fk1 fk2 : FState) (d1 d2 : Doc)
    (h1 : pipelineRun data rr rne true lvl s1 g fk1 = .ok d1)
    (h2 : pipelineRun data rr rne true lvl s2 g fk2 = .ok d2) :
    lookupDict "relationships" d1 = lookupDict "relationships" d2 := by
  simp only [pipelineRun] at h1 h2
  cases hs : simplify_relationships data rr rne g with
  | error e =>
    rw [hs] at h1
    exact absurd h1 (by simp)
  | ok p =>
    obtain ⟨d0, g1⟩ := p
    simp only [hs, if_pos rfl] at h1 h2
    cases ha1 : anonymize_data d0 lvl s1 g1 fk1 with
    | error e =>
      simp only [ha1] at h1
      exact absurd h1 (by simp)
    | ok q1 =>
      obtain ⟨e1, st1⟩ := q1
      simp only [ha1] at h1
      cases ha2 : anonymize_data d0 lvl s2 g1 fk2 with
      | error e =>
        simp only [ha2] at h2
        exact absurd h2 (by simp)
      | ok q2 =>
        obtain ⟨e2, st2⟩ := q2
        simp only [ha2] at h2
        cases h1
        cases h2
        have hk : ("relationships" : String) ≠ "datasets" := by decide
        rw [anonymize_keeps_other_keys d0 lvl s1 g1 fk1 d1 st1 "relationships" ha1 hk,
            anonymize_keeps_other_keys d0 lvl s2 g1 fk2 d2 st2 "relationships" ha2 hk]

theorem retention_state_deterministic_witness :
    pipelineRun [("relationships", .list [.list [.str "a", .str "b"]]), ("datasets", .list [])]
        false true true "low" (some 1) ⟨fun _ => 500000, 0⟩ ⟨0⟩ =
      .ok [("relationships", .list [.list [.str "a", .str "b"]]), ("datasets", .list [])] ∧
    pipelineRun [("relationships", .list [.list [.str "a", .str "b"]]), ("datasets", .list [])]
        false true true "low" (some 2) ⟨fun _ => 500000, 0⟩ ⟨0⟩ =
      .ok [("relationships", .list [.list [.str "a", .str "b"]]), ("datasets", .list [])] ∧
    lookupDict "relationships"
        [("relationships", .list [.list [.str "a", .str "b"]]), ("datasets", .list [])] =
      lookupDict "relationships"
        [("relationships", .list [.list [.str "a", .str "b"]]), ("datasets", .list [])] :=
  ⟨rfl, rfl,
    retention_state_deterministic
      [("relationships", .list [.list [.str "a", .str "b"]]), ("datasets", .list [])]
      false true "low" (some 1) (some 2) ⟨fun _ => 500000, 0⟩ ⟨0⟩ ⟨0⟩ _ _ rfl rfl⟩

/-- Intended-parse property: two runs of the intended pipeline on the
same document with `remove_non_essential` set and the same fixed seed
(42) retain different relationship entry sets when the process-wide
generator starts in different states, since `random.seed(seed)` only runs
inside `anonymize_data`, after the retention filter. -/
theorem seed_determinism_cex :
    pipelineRun [("relationships", .list [.list [.str "a", .str "b"]]), ("datasets", .list [])]
        false true true "low" (some 42) ⟨fun _ => 500000, 0⟩ ⟨0⟩ =
      .ok [("relationships", .list [.list [.str "a", .str "b"]]), ("datasets", .list [])] ∧
    pipelineRun [("relationships", .list [.list [.str "a", .str "b"]]), ("datasets", .list [])]
        false true true "low" (some 42) ⟨fun _ => 100000, 0⟩ ⟨0⟩ =
      .ok [("relationships", .list []), ("datasets", .list [])] ∧
    ([("relationships", .list [.list [.str "a", .str "b"]]), ("datasets", .list [])] : Doc) ≠
      [("relationships", .list []), ("datasets", .list [])] :=
  ⟨rfl, rfl, by decide⟩

theorem hexDigit_hex (d : Nat) : isHexCh (hexDigit d) = true := by
  unfold hexDigit
  rcases (by omega : d % 16 = 0 ∨ d % 16 = 1 ∨ d % 16 = 2 ∨ d % 16 = 3 ∨ d % 16 = 4 ∨
      d % 16 = 5 ∨ d % 16 = 6 ∨ d % 16 = 7 ∨ d % 16 = 8 ∨ d % 16 = 9 ∨ d % 16 = 10 ∨
      d % 16 = 11 ∨ d % 16 = 12 ∨ d % 16 = 13 ∨ d % 16 = 14 ∨ d % 16 = 15) with
    h|h|h|h|h|h|h|h|h|h|h|h|h|h|h|h <;> rw [h] <;> decide

theorem isUuid_uuidFromNat (n : Nat) : isUuid (uuidFromNat n) = true := by
  simp [isUuid, uuidFromNat, allHex, hexDigit_hex]
  decide

theorem randint_0_100 (g : RState) :
    0 ≤ (randint 0 100 g).1 ∧ (randint 0 100 g).1 ≤ 100 := by
  simp only [randint]
  constructor
  · have h := Int.emod_nonneg (Int.ofNat (g.stream g.pos)) (by decide : (100 - 0 + 1 : Int) ≠ 0)
    omega
  · have h := Int.emod_lt_of_pos (Int.ofNat (g.stream g.pos))
      (by decide : (0 : Int) < 100 - 0 + 1)
    omega

theorem anonValue_low (k : String) (v : JValue) (st : St) :
    lowSpec k v (anonValue "low" k v st).1 := by
  obtain ⟨g, fk⟩ := st
  show lowSpec k v
    (if isStr v && pyIn "name" (pyLower k) then
        let (s, fk') := fakeName fk; ((.str s : JValue), ((g, fk') : St))
      else if isStr v && pyIn "email" (pyLower k) then
        let (s, fk') := fakeEmail fk; (.str s, (g, fk'))
      else if isStr v && pyIn "phone" (pyLower k) then
        let (s, fk') := fakePhone fk; (.str s, (g, fk'))
      else (v, (g, fk))).1
  unfold lowSpec
  by_cases h1 : (isStr v && pyIn "name" (pyLower k)) = true
  · simp only [h1, if_true]
    exact ⟨fk, rfl⟩
  · simp only [h1, if_false, Bool.not_eq_true] at *
    simp only [h1, Bool.false_eq_true, if_false]
    by_cases h2 : (isStr v && pyIn "email" (pyLower k)) = true
    · simp only [h2, if_true]
      exact ⟨fk, rfl⟩
    · simp only [h2, Bool.not_eq_true] at *
      simp only [h2, Bool.false_eq_true, if_false]
      by_cases h3 : (isStr v && pyIn "phone" (pyLower k)) = true
      · simp only [h3, if_true]
        exact ⟨fk, rfl⟩
      · simp only [h3, Bool.not_eq_true] at *
        simp only [h3, Bool.false_eq_true, if_false]

theorem anonValue_medium (k : String) (v : JValue) (st : St) :
    medSpec k v (anonValue "medium" k v st).1 := by
  obtain ⟨g, fk⟩ := st
  show medSpec k v
    (if isStr v then
        (if pyIn "name" (pyLower k) then
          let (s, fk') := fakeName fk; ((.str s : JValue), ((g, fk') : St))
        else if pyIn "email" (pyLower k) then
          let (s, fk') := fakeEmail fk; (.str s, (g, fk'))
        else if pyIn "phone" (pyLower k) then
          let (s, fk') := fakePhone fk; (.str s, (g, fk'))
        else if pyIn "address" (pyLower k) then
          let (s, fk') := fakeAddr fk; (.str s, (g, fk'))
        else if pyIn "city" (pyLower k) then
          let (s, fk') := fakeCity fk; (.str s, (g, fk'))
        else
          let (s, fk') := fakeWord fk; (.str s, (g, fk')))
      else if pyIsInt v then
        let (m, g') := randint 0 100 g; (.int m, (g', fk))
      else (v, (g, fk))).1
  cases v with
  | str s =>
    constructor
    · intro h
      simp [pyIsInt] at h
    · intro h
      simp [isStr] at h
  | int n =>
    constructor
    · intro _
      refine ⟨(randint 0 100 g).1, ?_, (randint_0_100 g).1, (randint_0_100 g).2⟩
      simp [isStr, pyIsInt]
    · intro h
      simp [pyIsInt] at *
  | bool b =>
    constructor
    · intro _
      refine ⟨(randint 0 100 g).1, ?_, (randint_0_100 g).1, (randint_0_100 g).2⟩
      simp [isStr, pyIsInt]
    · intro _ h
      simp [pyIsInt] at h
  | null =>
    exact ⟨fun h => by simp [pyIsInt] at h, fun _ _ => by simp [isStr, pyIsInt]⟩
  | list xs =>
    exact ⟨fun h => by simp [pyIsInt] at h, fun _ _ => by simp [isStr, pyIsInt]⟩
  | obj kvs =>
    exact ⟨fun h => by simp [pyIsInt] at h, fun _ _ => by simp [isStr, pyIsInt]⟩

theorem anonValue_high (k : String) (v : JValue) (st : St) :
    highSpec k v (anonValue "high" k v st).1 := by
  obtain ⟨g, fk⟩ := st
  exact ⟨uuidFromNat fk.ctr, rfl, isUuid_uuidFromNat fk.ctr⟩

theorem anonRecord_rel (R : String → JValue → JValue → Prop) (level : String)
    (hR : ∀ k v st, R k v (anonValue level k v st).1) :
    ∀ kvs st, List.Forall₂ (fun p q => q.1 = p.1 ∧ R p.1 p.2 q.2)
      kvs (anonRecord level kvs st).1 := by
  intro kvs
  induction kvs with
  | nil => intro st; exact List.Forall₂.nil
  | cons p rest ih =>
    intro st
    obtain ⟨k, v⟩ := p
    exact List.Forall₂.cons ⟨rfl, hR k v st⟩ (ih (anonValue level k v st).2)

theorem anonRecords_rel (R : String → JValue → JValue → Prop) (level : String)
    (hR : ∀ k v st, R k v (anonValue level k v st).1) :
    ∀ recs st recs' st', anonRecords level recs st = .ok (recs', st') →
    List.Forall₂ (fun r r' => ∃ kvs kvs', r = .obj kvs ∧ r' = .obj kvs' ∧
      List.Forall₂ (fun p q => q.1 = p.1 ∧ R p.1 p.2 q.2) kvs kvs') recs recs' := by
  intro recs
  induction recs with
  | nil =>
    intro st recs' st' h
    simp only [anonRecords, Except.ok.injEq, Prod.mk.injEq] at h
    rw [← h.1]
    exact List.Forall₂.nil
  | cons r rest ih =>
    intro st recs' st' h
    cases r with
    | obj kvs =>
      simp only [anonRecords] at h
      cases hrec : anonRecords level rest (anonRecord level kvs st).2 with
      | error e =>
        rw [hrec] at h
        exact absurd h (by simp)
      | ok q =>
        obtain ⟨rest', st2⟩ := q
        rw [hrec] at h
        cases h
        exact List.Forall₂.cons
          ⟨kvs, (anonRecord level kvs st).1, rfl, rfl, anonRecord_rel R level hR kvs st⟩
          (ih _ _ _ hrec)
    | null => exact absurd h (by simp [anonRecords])
    | bool b => exact absurd h (by simp [anonRecords])
    | int n => exact absurd h (by simp [anonRecords])
    | str s => exact absurd h (by simp [anonRecords])
    | list xs => exact absurd h (by simp [anonRecords])

theorem anonDatasets_rel (R : String → JValue → JValue → Prop) (level : String)
    (hR : ∀ k v st, R k v (anonValue level k v st).1) :
    ∀ dss st dss' st', anonDatasets level dss st = .ok (dss', st') →
    DatasetsRel R dss dss' := by
  intro dss
  induction dss with
  | nil =>
    intro st dss' st' h
    simp only [anonDatasets, Except.ok.injEq, Prod.mk.injEq] at h
    rw [← h.1]
    exact List.Forall₂.nil
  | cons ds rest ih =>
    intro st dss' st' h
    cases ds with
    | list recs =>
      simp only [anonDatasets] at h
      cases hrec : anonRecords level recs st with
      | error e =>
        rw [hrec] at h
        exact absurd h (by simp)
      | ok q =>
        obtain ⟨recs', st1⟩ := q
        simp only [hrec] at h
        cases hrest : anonDatasets level rest st1 with
        | error e =>
          simp only [hrest] at h
          exact absurd h (by simp)
        | ok q2 =>
          obtain ⟨rest', st2⟩ := q2
          simp only [hrest] at h
          cases h
          exact List.Forall₂.cons
            ⟨recs, recs', rfl, rfl, anonRecords_rel R level hR recs st recs' st1 hrec⟩
            (ih _ _ _ hrest)
    | null => exact absurd h (by simp [anonDatasets])
    | bool b => exact absurd h (by simp [anonDatasets])
    | int n => exact absurd h (by simp [anonDatasets])
    | str s => exact absurd h (by simp [anonDatasets])
    | obj kvs => exact absurd h (by simp [anonDatasets])

theorem anonymize_rel (R : String → JValue → JValue → Prop) (level : String)
    (hR : ∀ k v st, R k v (anonValue level k v st).1)
    (data : Doc) (seed : Option Int) (g : RState) (fk : FState)
    (data' : Doc) (st' : RState × FState) (dss : List JValue)
    (h : anonymize_data data level seed g fk = .ok (data', st'))
    (hds : lookupDict "datasets" data = some (.list dss)) :
    ∃ dss', lookupDict "datasets" data' = some (.list dss') ∧ DatasetsRel R dss dss' := by
  simp only [anonymize_data, hds] at h
  cases had : anonDatasets level dss (seedR seed g, fakerSeed seed fk) with
  | error e =>
    simp only [had] at h
    exact absurd h (by simp)
  | ok q =>
    obtain ⟨dss', st2⟩ := q
    simp only [had] at h
    cases h
    exact ⟨dss', lookupDict_dictSet_self _ _ _,
      anonDatasets_rel R level hR dss _ dss' st' had⟩

/-- Intended-parse property: at level `low` the intended code modifies
only text values — a text value whose key (lowercased) contains "name" /
"email" / "phone" (first match in that order) is replaced by the
corresponding synthetic value, and every other field (non-text values,
and text values under non-matching keys) keeps its original value. -/
theorem low_level_contract (data : Doc) (seed : Option Int) (g : RState) (fk : FState)
    (data' : Doc) (st' : RState × FState) (dss : List JValue)
    (h : anonymize_data data "low" seed g fk = .ok (data', st'))
    (hds : lookupDict "datasets" data = some (.list dss)) :
    ∃ dss', lookupDict "datasets" data' = some (.list dss') ∧ DatasetsRel lowSpec dss dss' :=
  anonymize_rel lowSpec "low" anonValue_low data seed g fk data' st' dss h hds

theorem low_level_contract_witness :
    anonymize_data
      [("datasets", .list [.list [.obj [("user_name", .str "Alice"), ("age", .int 30),
        ("note", .str "hi")]]])] "low" none ⟨fun _ => 7, 0⟩ ⟨0⟩ =
      .ok ([("datasets", .list [.list [.obj [("user_name", .str "Name0"), ("age", .int 30),
        ("note", .str "hi")]]])], ⟨fun _ => 7, 0⟩, ⟨1⟩) ∧
    lookupDict "datasets"
      [("datasets", .list [.list [.obj [("user_name", .str "Alice"), ("age", .int 30),
        ("note", .str "hi")]]])] =
      some (.list [.list [.obj [("user_name", .str "Alice"), ("age", .int 30),
        ("note", .str "hi")]]]) ∧
    (∃ dss', lookupDict "datasets"
        [("datasets", .list [.list [.obj [("user_name", .str "Name0"), ("age", .int 30),
          ("note", .str "hi")]]])] = some (.list dss') ∧
      DatasetsRel lowSpec
        [.list [.obj [("user_name", .str "Alice"), ("age", .int 30), ("note", .str "hi")]]]
        dss') :=
  ⟨rfl, rfl,
    low_level_contract
      [("datasets", .list [.list [.obj [("user_name", .str "Alice"), ("age", .int 30),
        ("note", .str "hi")]]])] none ⟨fun _ => 7, 0⟩ ⟨0⟩
      [("datasets", .list [.list [.obj [("user_name", .str "Name0"), ("age", .int 30),
        ("note", .str "hi")]]])] (⟨fun _ => 7, 0⟩, ⟨1⟩)
      [.list [.obj [("user_name", .str "Alice"), ("age", .int 30), ("note", .str "hi")]]]
      rfl rfl⟩

/-- Intended-parse property: at level `high` the intended code replaces
every value of every field in every record — regardless of key name and
of the original value's type — by a freshly generated string in the
synthetic unique-identifier (UUID) format, leaving field names and
record/dataset structure unchanged. -/
theorem high_level_contract (data : Doc) (seed : Option Int) (g : RState) (fk : FState)
    (data' : Doc) (st' : RState × FState) (dss : List JValue)
    (h : anonymize_data data "high" seed g fk = .ok (data', st'))
    (hds : lookupDict "datasets" data = some (.list dss)) :
    ∃ dss', lookupDict "datasets" data' = some (.list dss') ∧ DatasetsRel highSpec dss dss' :=
  anonymize_rel highSpec "high" anonValue_high data seed g fk data' st' dss h hds

theorem high_level_contract_witness :
    anonymize_data [("datasets", .list [.list [.obj [("id", .int 5), ("x", .null)]]])]
      "high" none ⟨fun _ => 0, 0⟩ ⟨0⟩ =
      .ok ([("datasets", .list [.list [.obj [("id", .str (uuidFromNat 0)),
        ("x", .str (uuidFromNat 1))]]])], ⟨fun _ => 0, 0⟩, ⟨2⟩) ∧
    lookupDict "datasets" [("datasets", .list [.list [.obj [("id", .int 5), ("x", .null)]]])] =
      some (.list [.list [.obj [("id", .int 5), ("x", .null)]]]) ∧
    (∃ dss', lookupDict "datasets"
        [("datasets", .list [.list [.obj [("id", .str (uuidFromNat 0)),
          ("x", .str (uuidFromNat 1))]]])] = some (.list dss') ∧
      DatasetsRel highSpec [.list [.obj [("id", .int 5), ("x", .null)]]] dss') :=
  ⟨rfl, rfl,
    high_level_contract [("datasets", .list [.list [.obj [("id", .int 5), ("x", .null)]]])]
      none ⟨fun _ => 0, 0⟩ ⟨0⟩
      [("datasets", .list [.list [.obj [("id", .str (uuidFromNat 0)),
        ("x", .str (uuidFromNat 1))]]])] (⟨fun _ => 0, 0⟩, ⟨2⟩)
      [.list [.obj [("id", .int 5), ("x", .null)]]] rfl rfl⟩

/-- Intended-parse property: at level `medium` the intended code replaces
any integer value — and, because Python's `isinstance(value, int)` also
holds for booleans, any boolean value — by a uniformly drawn integer in
the closed range `[0, 100]`, and leaves a value that is neither text nor
integer nor boolean untouched. -/
theorem medium_level_contract (data : Doc) (seed : Option Int) (g : RState) (fk : FState)
    (data' : Doc) (st' : RState × FState) (dss : List JValue)
    (h : anonymize_data data "medium" seed g fk = .ok (data', st'))
    (hds : lookupDict "datasets" data = some (.list dss)) :
    ∃ dss', lookupDict "datasets" data' = some (.list dss') ∧ DatasetsRel medSpec dss dss' :=
  anonymize_rel medSpec "medium" anonValue_medium data seed g fk data' st' dss h hds

theorem medium_level_contract_witness :
    anonymize_data
      [("datasets", .list [.list [.obj [("age", .int 30), ("flag", .bool false),
        ("note", .null)]]])] "medium" none ⟨fun _ => 7, 0⟩ ⟨0⟩ =
      .ok ([("datasets", .list [.list [.obj [("age", .int 7), ("flag", .int 7),
        ("note", .null)]]])], ⟨fun _ => 7, 2⟩, ⟨0⟩) ∧
    lookupDict "datasets"
      [("datasets", .list [.list [.obj [("age", .int 30), ("flag", .bool false),
        ("note", .null)]]])] =
      some (.list [.list [.obj [("age", .int 30), ("flag", .bool false), ("note", .null)]]]) ∧
    (∃ dss', lookupDict "datasets"
        [("datasets", .list [.list [.obj [("age", .int 7), ("flag", .int 7),
          ("note", .null)]]])] = some (.list dss') ∧
      DatasetsRel medSpec
        [.list [.obj [("age", .int 30), ("flag", .bool false), ("note", .null)]]] dss') :=
  ⟨rfl, rfl,
    medium_level_contract
      [("datasets", .list [.list [.obj [("age", .int 30), ("flag", .bool false),
        ("note", .null)]]])] none ⟨fun _ => 7, 0⟩ ⟨0⟩
      [("datasets", .list [.list [.obj [("age", .int 7), ("flag", .int 7),
        ("note", .null)]]])] (⟨fun _ => 7, 2⟩, ⟨0⟩)
      [.list [.obj [("age", .int 30), ("flag", .bool false), ("note", .null)]]] rfl rfl⟩

/-- Intended-parse property: at level `medium` the intended code does not
leave a boolean value — which in the JSON data model is neither text nor
an integer — untouched: `isinstance(True, int)` holds in Python, so the
boolean field is replaced by a random integer (the repaired
`src/main.py:162-163`). -/
theorem medium_bool_replaced_cex :
    (anonymize_data [("datasets", .list [.list [.obj [("flag", .bool true)]]])]
        "medium" none ⟨fun _ => 7, 0⟩ ⟨0⟩).map (fun p => p.1) =
      .ok [("datasets", .list [.list [.obj [("flag", .int 7)]]])] ∧
    isStr (.bool true) = false ∧
    ([("datasets", .list [.list [.obj [("flag", .bool true)]]])] : Doc) ≠
      [("datasets", .list [.list [.obj [("flag", .int 7)]]])] :=
  ⟨rfl, rfl, by decide⟩

theorem anonRecords_ok_iff (level : String) : ∀ recs st,
    (∃ out, anonRecords level recs st = .ok out) ↔ recs.all isObjJ = true := by
  intro recs
  induction recs with
  | nil => intro st; simp [anonRecords]
  | cons r rest ih =>
    intro st
    cases r with
    | obj kvs =>
      simp only [anonRecords, List.all_cons, isObjJ, Bool.true_and]
      constructor
      · rintro ⟨out, hout⟩
        cases hr : anonRecords level rest (anonRecord level kvs st).2 with
        | error e =>
          simp only [hr] at hout
          exact absurd hout (by simp)
        | ok q => exact (ih _).mp ⟨q, hr⟩
      · intro hall
        obtain ⟨q, hq⟩ := (ih ((anonRecord level kvs st).2)).mpr hall
        obtain ⟨rest', st2⟩ := q
        refine ⟨(.obj (anonRecord level kvs st).1 :: rest', st2), ?_⟩
        simp [hq]
    | null => simp [anonRecords, isObjJ]
    | bool b => simp [anonRecords, isObjJ]
    | int n => simp [anonRecords, isObjJ]
    | str s => simp [anonRecords, isObjJ]
    | list xs => simp [anonRecords, isObjJ]

theorem anonDatasets_ok_iff (level : String) : ∀ dss st,
    (∃ out, anonDatasets level dss st = .ok out) ↔ dss.all isRecListJ = true := by
  intro dss
  induction dss with
  | nil => intro st; simp [anonDatasets]
  | cons ds rest ih =>
    intro st
    cases ds with
    | list recs =>
      simp only [anonDatasets, List.all_cons, isRecListJ, Bool.and_eq_true]
      constructor
      · rintro ⟨out, hout⟩
        cases hr : anonRecords level recs st with
        | error e =>
          simp only [hr] at hout
          exact absurd hout (by simp)
        | ok q =>
          obtain ⟨recs', st1⟩ := q
          simp only [hr] at hout
          cases hd : anonDatasets level rest st1 with
          | error e =>
            simp only [hd] at hout
            exact absurd hout (by simp)
          | ok q2 =>
            exact ⟨(anonRecords_ok_iff level recs st).mp ⟨(recs', st1), hr⟩,
              (ih st1).mp ⟨q2, hd⟩⟩
      · rintro ⟨h1, h2⟩
        obtain ⟨q1, hq1⟩ := (anonRecords_ok_iff level recs st).mpr h1
        obtain ⟨recs', st1⟩ := q1
        obtain ⟨q2, hq2⟩ := (ih st1).mpr h2
        obtain ⟨rest', st2⟩ := q2
        refine ⟨(.list recs' :: rest', st2), ?_⟩
        simp [hq1, hq2]
    | null => simp [anonDatasets, isRecListJ]
    | bool b => simp [anonDatasets, isRecListJ]
    | int n => simp [anonDatasets, isRecListJ]
    | str s => simp [anonDatasets, isRecListJ]
    | obj kvs => simp [anonDatasets, isRecListJ]

/-- Intended-parse property: for a document with a `datasets` key, the
intended `anonymize_data` succeeds if and only if the value is a sequence
of sequences of mappings — equivalently it raises a validation error
exactly when the value is not a list, or some element is not a list, or
some record is not a mapping. -/
theorem anonymize_error_iff_malformed (data : Doc) (level : String) (seed : Option Int)
    (g : RState) (fk : FState) (ds : JValue)
    (hds : lookupDict "datasets" data = some ds) :
    (∃ out, anonymize_data data level seed g fk = .ok out) ↔
      wellShapedDatasets ds = true := by
  simp only [anonymize_data, hds]
  cases ds with
  | list dss =>
    simp only [wellShapedDatasets]
    constructor
    · rintro ⟨out, hout⟩
      cases had : anonDatasets level dss (seedR seed g, fakerSeed seed fk) with
      | error e =>
        simp only [had] at hout
        exact absurd hout (by simp)
      | ok q => exact (anonDatasets_ok_iff level dss _).mp ⟨q, had⟩
    · intro hall
      obtain ⟨q, hq⟩ :=
        (anonDatasets_ok_iff level dss (seedR seed g, fakerSeed seed fk)).mpr hall
      obtain ⟨dss', st2⟩ := q
      exact ⟨(dictSet "datasets" (.list dss') data, st2), by simp [hq]⟩
  | null => simp [wellShapedDatasets]
  | bool b => simp [wellShapedDatasets]
  | int n => simp [wellShapedDatasets]
  | str s => simp [wellShapedDatasets]
  | obj kvs => simp [wellShapedDatasets]

theorem anonymize_error_iff_malformed_witness :
    lookupDict "datasets" [("datasets", .list [.int 3])] = some (.list [.int 3]) ∧
    ((∃ out, anonymize_data [("datasets", .list [.int 3])] "medium" none
        ⟨fun _ => 0, 0⟩ ⟨0⟩ = .ok out) ↔
      wellShapedDatasets (.list [.int 3]) = true) ∧
    wellShapedDatasets (.list [.int 3]) = false :=
  ⟨rfl,
    anonymize_error_iff_malformed [("datasets", .list [.int 3])] "medium" none
      ⟨fun _ => 0, 0⟩ ⟨0⟩ (.list [.int 3]) rfl,
    rfl⟩

theorem pairRel_keys (R : String → JValue → JValue → Prop) :
    ∀ kvs kvs' : List (String × JValue),
    List.Forall₂ (fun p q => q.1 = p.1 ∧ R p.1 p.2 q.2) kvs kvs' →
    kvs'.map Prod.fst = kvs.map Prod.fst := by
  intro kvs kvs' h
  induction h with
  | nil => rfl
  | cons h1 _ ih => simp [h1.1, ih]

theorem datasetsRel_shape (R : String → JValue → JValue → Prop) :
    ∀ dss dss' : List JValue, DatasetsRel R dss dss' → dssShape dss' = dssShape dss := by
  intro dss dss' h
  induction h with
  | nil => rfl
  | cons h1 hrest ih =>
    obtain ⟨recs, recs', rfl, rfl, hrecs⟩ := h1
    have hr : recsShape recs' = recsShape recs := by
      clear ih hrest
      induction hrecs with
      | nil => rfl
      | cons hp _ ihr =>
        obtain ⟨kvs, kvs', rfl, rfl, hkv⟩ := hp
        simp only [recsShape, recShape]
        rw [pairRel_keys R kvs kvs' hkv, ihr]
    simp only [dssShape]
    rw [hr, ih]

/-- Intended-parse property (frame): a successful run of the intended
`anonymize_data`, at any level, only rewrites field values inside records
under the `datasets` key — the document keeps its length and key order,
every entry whose key is not `datasets` is unchanged (including
`relationships`), and the `datasets` value keeps its structural skeleton:
the number of datasets, the number of records per dataset, and each
record's ordered field names. -/
theorem anonymize_frame (data : Doc) (level : String) (seed : Option Int)
    (g : RState) (fk : FState) (data' : Doc) (st' : RState × FState)
    (h : anonymize_data data level seed g fk = .ok (data', st')) :
    data'.length = data.length ∧
    (∀ i (hi : i < data.length) (hi' : i < data'.length),
      data'[i].1 = data[i].1 ∧ (data[i].1 ≠ "datasets" → data'[i] = data[i])) ∧
    (∀ ds, lookupDict "datasets" data = some ds →
      ∃ ds', lookupDict "datasets" data' = some ds' ∧
        datasetsShape ds' = datasetsShape ds) := by
  cases hds : lookupDict "datasets" data with
  | none =>
    simp only [anonymize_data, hds] at h
    cases h
    refine ⟨rfl, fun i _ _ => ⟨rfl, fun _ => rfl⟩, fun ds hds' => ?_⟩
    exact absurd hds' (by simp)
  | some ds =>
    cases ds with
    | list dss =>
      simp only [anonymize_data, hds] at h
      cases had : anonDatasets level dss (seedR seed g, fakerSeed seed fk) with
      | error e =>
        simp only [had] at h
        exact absurd h (by simp)
      | ok q =>
        obtain ⟨dss', st2⟩ := q
        simp only [had] at h
        cases h
        refine ⟨length_dictSet_of_lookup "datasets" (.list dss) (.list dss') data hds,
          ?_, ?_⟩
        · intro i hi hi'
          exact dictSet_getElem "datasets" (.list dss') data i hi hi'
        · intro ds0 hds0
          cases hds0
          refine ⟨.list dss', lookupDict_dictSet_self _ _ _, ?_⟩
          have hrel := anonDatasets_rel (fun _ _ _ => True) level
            (fun _ _ _ => trivial) dss _ dss' st' had
          simp only [datasetsShape]
          exact datasetsRel_shape _ dss dss' hrel
    | null => simp [anonymize_data, hds] at h
    | bool b => simp [anonymize_data, hds] at h
    | int n => simp [anonymize_data, hds] at h
    | str s => simp [anonymize_data, hds] at h
    | obj kvs => simp [anonymize_data, hds] at h

theorem anonymize_frame_witness :
    anonymize_data [("relationships", .list []),
        ("datasets", .list [.list [.obj [("a", .int 1)]]])]
      "high" none ⟨fun _ => 0, 0⟩ ⟨0⟩ =
      .ok ([("relationships", .list []),
        ("datasets", .list [.list [.obj [("a", .str (uuidFromNat 0))]]])],
        ⟨fun _ => 0, 0⟩, ⟨1⟩) ∧
    (([("relationships", .list []),
        ("datasets", .list [.list [.obj [("a", .str (uuidFromNat 0))]]])] : Doc).length =
      ([("relationships", .list []),
        ("datasets", .list [.list [.obj [("a", .int 1)]]])] : Doc).length ∧
    (∀ i (hi : i < ([("relationships", .list []),
        ("datasets", .list [.list [.obj [("a", .int 1)]]])] : Doc).length)
      (hi' : i < ([("relationships", .list []),
        ("datasets", .list [.list [.obj [("a", .str (uuidFromNat 0))]]])] : Doc).length),
      ([("relationships", .list []),
        ("datasets", .list [.list [.obj [("a", .str (uuidFromNat 0))]]])] : Doc)[i].1 =
        ([("relationships", .list []),
          ("datasets", .list [.list [.obj [("a", .int 1)]]])] : Doc)[i].1 ∧
      (([("relationships", .list []),
          ("datasets", .list [.list [.obj [("a", .int 1)]]])] : Doc)[i].1 ≠ "datasets" →
        ([("relationships", .list []),
          ("datasets", .list [.list [.obj [("a", .str (uuidFromNat 0))]]])] : Doc)[i] =
          ([("relationships", .list []),
            ("datasets", .list [.list [.obj [("a", .int 1)]]])] : Doc)[i])) ∧
    (∀ ds, lookupDict "datasets" [("relationships", .list []),
        ("datasets", .list [.list [.obj [("a", .int 1)]]])] = some ds →
      ∃ ds', lookupDict "datasets" [("relationships", .list []),
          ("datasets", .list [.list [.obj [("a", .str (uuidFromNat 0))]]])] = some ds' ∧
        datasetsShape ds' = datasetsShape ds)) :=
  ⟨rfl,
    anonymize_frame [("relationships", .list []),
        ("datasets", .list [.list [.obj [("a", .int 1)]]])]
      "high" none ⟨fun _ => 0, 0⟩ ⟨0⟩
      [("relationships", .list []),
        ("datasets", .list [.list [.obj [("a", .str (uuidFromNat 0))]]])]
      (⟨fun _ => 0, 0⟩, ⟨1⟩) rfl⟩

/-- C1 (code bug): the pipeline never yields a retained entry set at all —
CPython's indentation rule rejects the statement lines of
`anonymize_data`'s loops (line 162, caused by line 149's extra space), so
the module fails to load, every invocation dies before `main`, and
`random.seed` is never reached.  Moreover the retention filter of the
syntactically valid `simplify_relationships`, which `main` would run
before any seeding, retains different entry sets from different generator
states at entry on the same document, so even the intended program's
retained set tracks the startup state of the generator rather than the
seed. -/
theorem retention_seed_never_applied :
    pyIndentsAccepted anonLoopIndents = false ∧
    simplify_relationships [("relationships", .list [.list [.str "a", .str "b"]])]
        false true ⟨fun _ => 500000, 0⟩ =
      .ok ([("relationships", .list [.list [.str "a", .str "b"]])],
        ⟨fun _ => 500000, 1⟩) ∧
    simplify_relationships [("relationships", .list [.list [.str "a", .str "b"]])]
        false true ⟨fun _ => 100000, 0⟩ =
      .ok ([("relationships", .list [])], ⟨fun _ => 100000, 1⟩) ∧
    ([("relationships", .list [.list [.str "a", .str "b"]])] : Doc) ≠
      [("relationships", .list [])] :=
  ⟨rfl, rfl, rfl, by decide⟩

/-- C2 (code bug): the `medium` branch the claim describes does not parse —
the tokenizer rejects the shipped indentation sequence of the
`anonymize_data` loops, and accepts the sequence with the single
one-space repair of line 149, the evident intent the spec describes; the
shipped program therefore performs no medium-level substitution on any
input. -/
theorem medium_branch_unparseable :
    pyIndentsAccepted anonLoopIndents = false ∧
    pyIndentsAccepted anonLoopIndentsRepaired = true :=
  ⟨rfl, rfl⟩

/-- C4 (code bug): the `high` branch is never reached: the module is
rejected before it loads — line 149 opens a block at width 21 (entry 17
of the region's widths) that the `elif` at line 162 cannot close at
width 20 (entry 30), so no value is ever replaced by a unique
identifier. -/
theorem high_branch_never_reached :
    pyIndentsAccepted anonLoopIndents = false ∧
    anonLoopIndents.getD 17 0 = 21 ∧ anonLoopIndents.getD 30 0 = 20 :=
  ⟨rfl, rfl, rfl⟩

/-- C5 (code bug): the `low` branch's own lines are indentation-consistent
— the region's widths are accepted through line 147 (the first seventeen
entries) — but the module as a whole is rejected at line 162, so no
low-level substitution ever runs. -/
theorem low_branch_never_reached :
    pyIndentsAccepted (anonLoopIndents.take 17) = true ∧
    pyIndentsAccepted anonLoopIndents = false :=
  ⟨rfl, rfl⟩

/-- C6 (code bug): the validation lines (`src/main.py:129-136`, the first
eight entries of the region's widths) are themselves
indentation-consistent, but the module is rejected at line 162 before it
loads, so the documented validation runs for no input — well-shaped or
not, every invocation dies with the same `IndentationError`. -/
theorem validation_never_runs :
    pyIndentsAccepted (anonLoopIndents.take 8) = true ∧
    pyIndentsAccepted anonLoopIndents = false :=
  ⟨rfl, rfl⟩

/-- C9 (code bug): no anonymization run ever happens for the frame
property to describe: the tokenizer rejects the shipped widths, and the
rejected and repaired sequences differ in exactly one entry — the single
space at line 149 that keeps the whole anonymizer from existing. -/
theorem frame_never_exhibited :
    pyIndentsAccepted anonLoopIndents = false ∧
    ((anonLoopIndents.zip anonLoopIndentsRepaired).filter
      (fun p => !(p.1 == p.2))).length = 1 :=
  ⟨rfl, rfl⟩
